import Mathlib

/-!
Shallow embedding of `src/phy/reg.rs` from the stm32-eth repository.

The Rust source declares, via the `impl_phy_registers!` macro, six MDIO PHY
register types (`Bcr`, `Bsr`, `Phyidr1`, `Phyidr2`, `Anar`, `Anlpar`), each
wrapping a raw `u16`.  The macro stamps out, per field of a register:

  - a mask constant (arm `reg_mask`),
  - a getter `fn field(&self) -> bool { self.0 & MASK == MASK }` (arm
    `reg_getter`),
  - for writable fields only, a setter (arm `reg_setter`):
      if b { self.0 = self.0 | MASK } else { self.0 = self.0 & (self.0 ^ MASK) }

together with `From<u16>` / `Into<u16>` conversions (the wrapped integer is
the wire value) and a `Register` impl fixing an `ADDRESS : u8` constant.

We model `u16` values as `Nat` (with an explicit `< 65536` bound where a
claim speaks of 16-bit values; all bitwise operations used by the source
behave identically on `Nat` restricted to that range).  The per-field macro
arms become the mask-parameterised functions `reg_getter` / `reg_setter`;
each register kind becomes a structure wrapping `raw : Nat`; each register
kind's field table becomes an enumeration carrying its mask, mirroring the
literal table in the `impl_phy_registers!` invocation.
-/

namespace StmEth

/-- Macro arm `reg_getter`: `self.0 & $mask == $mask`. -/
def reg_getter (mask v : Nat) : Bool :=
  v &&& mask == mask

/-- Macro arm `reg_setter`: on `true`, `self.0 = self.0 | $mask`; on `false`,
`self.0 = self.0 & (self.0 ^ $mask)`. -/
def reg_setter (mask : Nat) (b : Bool) (v : Nat) : Nat :=
  if b then v ||| mask else v &&& (v ^^^ mask)

/-- Register `Bcr` (basic control register), `pub struct Bcr(pub u16)`. -/
structure Bcr where
  raw : Nat
deriving DecidableEq

/-- Register `Bsr` (basic status register), `pub struct Bsr(pub u16)`. -/
structure Bsr where
  raw : Nat
deriving DecidableEq

/-- Register `Phyidr1`, `pub struct Phyidr1(pub u16)`. -/
structure Phyidr1 where
  raw : Nat
deriving DecidableEq

/-- Register `Phyidr2`, `pub struct Phyidr2(pub u16)`. -/
structure Phyidr2 where
  raw : Nat
deriving DecidableEq

/-- Register `Anar` (auto-negotiation advertisement register). -/
structure Anar where
  raw : Nat
deriving DecidableEq

/-- Register `Anlpar` (auto-negotiation link partner ability register). -/
structure Anlpar where
  raw : Nat
deriving DecidableEq

/-- `impl From<u16> for Bcr`: `Self(u)`. -/
def Bcr.fromU16 (u : Nat) : Bcr := ⟨u⟩

/-- `impl Into<u16> for Bcr`: `self.0`. -/
def Bcr.intoU16 (r : Bcr) : Nat := r.raw

/-- `impl From<u16> for Bsr`. -/
def Bsr.fromU16 (u : Nat) : Bsr := ⟨u⟩

/-- `impl Into<u16> for Bsr`. -/
def Bsr.intoU16 (r : Bsr) : Nat := r.raw

/-- `impl From<u16> for Phyidr1`. -/
def Phyidr1.fromU16 (u : Nat) : Phyidr1 := ⟨u⟩

/-- `impl Into<u16> for Phyidr1`. -/
def Phyidr1.intoU16 (r : Phyidr1) : Nat := r.raw

/-- `impl From<u16> for Phyidr2`. -/
def Phyidr2.fromU16 (u : Nat) : Phyidr2 := ⟨u⟩

/-- `impl Into<u16> for Phyidr2`. -/
def Phyidr2.intoU16 (r : Phyidr2) : Nat := r.raw

/-- `impl From<u16> for Anar`. -/
def Anar.fromU16 (u : Nat) : Anar := ⟨u⟩

/-- `impl Into<u16> for Anar`. -/
def Anar.intoU16 (r : Anar) : Nat := r.raw

/-- `impl From<u16> for Anlpar`. -/
def Anlpar.fromU16 (u : Nat) : Anlpar := ⟨u⟩

/-- `impl Into<u16> for Anlpar`. -/
def Anlpar.intoU16 (r : Anlpar) : Nat := r.raw

/-- `impl Register for Bcr { const ADDRESS: u8 = 0x00; }`. -/
def Bcr.ADDRESS : Nat := 0x00

/-- `impl Register for Bsr { const ADDRESS: u8 = 0x1; }`. -/
def Bsr.ADDRESS : Nat := 0x1

/-- `impl Register for Phyidr1 { const ADDRESS: u8 = 0x2; }`. -/
def Phyidr1.ADDRESS : Nat := 0x2

/-- `impl Register for Phyidr2 { const ADDRESS: u8 = 0x3; }`. -/
def Phyidr2.ADDRESS : Nat := 0x3

/-- `impl Register for Anar { const ADDRESS: u8 = 0x4; }`. -/
def Anar.ADDRESS : Nat := 0x4

/-- `impl Register for Anlpar { const ADDRESS: u8 = 0x5; }`. -/
def Anlpar.ADDRESS : Nat := 0x5

/-- The named fields of `Bcr`, in the order of the source table.  Every
`Bcr` field is declared with both a getter and a setter (writable). -/
inductive BcrField
  | soft_reset
  | loopback
  | force_100
  | enable_autoneg
  | power_down
  | isolate
  | restart_autoneg
  | force_fd
  | collision_test
  | hp_mdix
  | force_mdi
  | disable_mdix
  | disable_far_end_fault
  | disable_transmit
  | disable_leds
deriving DecidableEq, Fintype

/-- The mask column of the `Bcr` table in the `impl_phy_registers!`
invocation. -/
def BcrField.mask : BcrField → Nat
  | .soft_reset => 0x8000
  | .loopback => 0x4000
  | .force_100 => 0x2000
  | .enable_autoneg => 0x1000
  | .power_down => 0x0800
  | .isolate => 0x0400
  | .restart_autoneg => 0x0200
  | .force_fd => 0x0100
  | .collision_test => 0x0080
  | .hp_mdix => 0x0020
  | .force_mdi => 0x0010
  | .disable_mdix => 0x0008
  | .disable_far_end_fault => 0x0004
  | .disable_transmit => 0x0002
  | .disable_leds => 0x0001

/-- The named fields of `Bsr`, in the order of the source table.  Every
`Bsr` field is declared with a getter only (read-only). -/
inductive BsrField
  | capable_t4
  | capable_100_fd
  | capable_100_hd
  | capable_10_fd
  | capable_10_hd
  | an_complete
  | remote_fault
  | autoneg_capable
  | link_status
  | jabber_test
  | extended_capable
deriving DecidableEq, Fintype

/-- The mask column of the `Bsr` table. -/
def BsrField.mask : BsrField → Nat
  | .capable_t4 => 0x8000
  | .capable_100_fd => 0x4000
  | .capable_100_hd => 0x2000
  | .capable_10_fd => 0x1000
  | .capable_10_hd => 0x0800
  | .an_complete => 0x0020
  | .remote_fault => 0x0010
  | .autoneg_capable => 0x0008
  | .link_status => 0x0004
  | .jabber_test => 0x0002
  | .extended_capable => 0x0001

/-- The named fields of `Anar`, in the order of the source table.  Every
`Anar` field is declared with both a getter and a setter (writable). -/
inductive AnarField
  | adv_pause
  | adv_100_fd
  | adv_100_hd
  | adv_10_fd
  | adv_10_hd
deriving DecidableEq, Fintype

/-- The mask column of the `Anar` table. -/
def AnarField.mask : AnarField → Nat
  | .adv_pause => 0x0400
  | .adv_100_fd => 0x0100
  | .adv_100_hd => 0x0080
  | .adv_10_fd => 0x0040
  | .adv_10_hd => 0x0020

/-- The named fields of `Anlpar`, in the order of the source table.  Every
`Anlpar` field is declared with a getter only (read-only). -/
inductive AnlparField
  | lp_pause
  | lp_100_fd
  | lp_100_hd
  | lp_10_fd
  | lp_10_hd
deriving DecidableEq, Fintype

/-- The mask column of the `Anlpar` table. -/
def AnlparField.mask : AnlparField → Nat
  | .lp_pause => 0x0400
  | .lp_100_fd => 0x0100
  | .lp_100_hd => 0x0080
  | .lp_10_fd => 0x0040
  | .lp_10_hd => 0x0020

/-- The generated getter of a `Bcr` field (macro arm `reg_getter` at that
field's mask). -/
def Bcr.get (f : BcrField) (r : Bcr) : Bool := reg_getter f.mask r.raw

/-- The generated setter of a `Bcr` field (macro arm `reg_setter` at that
field's mask); the Rust setter mutates in place and returns `&mut Self`,
modelled as returning the updated register value. -/
def Bcr.set (f : BcrField) (b : Bool) (r : Bcr) : Bcr := ⟨reg_setter f.mask b r.raw⟩

/-- The generated getter of a `Bsr` field.  `Bsr` fields have no setter. -/
def Bsr.get (f : BsrField) (r : Bsr) : Bool := reg_getter f.mask r.raw

/-- The generated getter of an `Anar` field. -/
def Anar.get (f : AnarField) (r : Anar) : Bool := reg_getter f.mask r.raw

/-- The generated setter of an `Anar` field. -/
def Anar.set (f : AnarField) (b : Bool) (r : Anar) : Anar := ⟨reg_setter f.mask b r.raw⟩

/-- The generated getter of an `Anlpar` field.  `Anlpar` fields have no
setter. -/
def Anlpar.get (f : AnlparField) (r : Anlpar) : Bool := reg_getter f.mask r.raw

/-- Generated method `Bcr::soft_reset` (mask `0x8000`). -/
def Bcr.soft_reset (r : Bcr) : Bool := Bcr.get .soft_reset r

/-- Generated method `Bcr::loopback` (mask `0x4000`). -/
def Bcr.loopback (r : Bcr) : Bool := Bcr.get .loopback r

/-- Generated method `Bcr::force_100` (mask `0x2000`). -/
def Bcr.force_100 (r : Bcr) : Bool := Bcr.get .force_100 r

/-- A writable field of some register kind: the fields for which the source
table lists a setter name, i.e. exactly the `Bcr` and `Anar` fields. -/
inductive WritableField
  | bcr (f : BcrField)
  | anar (f : AnarField)
deriving DecidableEq, Fintype

/-- The mask of a writable field. -/
def WritableField.mask : WritableField → Nat
  | .bcr f => f.mask
  | .anar f => f.mask

/-- Every field of every register kind, with its mask. -/
inductive AnyField
  | bcr (f : BcrField)
  | bsr (f : BsrField)
  | anar (f : AnarField)
  | anlpar (f : AnlparField)
deriving DecidableEq, Fintype

/-- The mask of any field. -/
def AnyField.mask : AnyField → Nat
  | .bcr f => f.mask
  | .bsr f => f.mask
  | .anar f => f.mask
  | .anlpar f => f.mask

/-- The bit index of a `Bcr` field's (single-bit) mask. -/
def BcrField.bit : BcrField → Nat
  | .soft_reset => 15
  | .loopback => 14
  | .force_100 => 13
  | .enable_autoneg => 12
  | .power_down => 11
  | .isolate => 10
  | .restart_autoneg => 9
  | .force_fd => 8
  | .collision_test => 7
  | .hp_mdix => 5
  | .force_mdi => 4
  | .disable_mdix => 3
  | .disable_far_end_fault => 2
  | .disable_transmit => 1
  | .disable_leds => 0

/-- The bit index of an `Anar` field's (single-bit) mask. -/
def AnarField.bit : AnarField → Nat
  | .adv_pause => 10
  | .adv_100_fd => 8
  | .adv_100_hd => 7
  | .adv_10_fd => 6
  | .adv_10_hd => 5

/-- The bit index of a writable field's (single-bit) mask. -/
def WritableField.bit : WritableField → Nat
  | .bcr f => f.bit
  | .anar f => f.bit

/-- A field-accessor call available on a `Bsr` value: the macro's getter-only
arm generates nothing but the getters for the `Bsr` table. -/
inductive BsrOp
  | get (f : BsrField)

/-- Effect of one `Bsr` field-accessor call: the getter borrows the register
immutably (`&self`) and produces a boolean, leaving the register as is. -/
def BsrOp.run (op : BsrOp) (r : Bsr) : Bool × Bsr :=
  match op with
  | .get f => (Bsr.get f r, r)

/-- Run a sequence of `Bsr` field-accessor calls, threading the register
value through. -/
def Bsr.runOps : List BsrOp → Bsr → Bsr
  | [], r => r
  | op :: ops, r => Bsr.runOps ops (BsrOp.run op r).2

/-- A field-accessor call available on an `Anlpar` value (getters only). -/
inductive AnlparOp
  | get (f : AnlparField)

/-- Effect of one `Anlpar` field-accessor call. -/
def AnlparOp.run (op : AnlparOp) (r : Anlpar) : Bool × Anlpar :=
  match op with
  | .get f => (Anlpar.get f r, r)

/-- Run a sequence of `Anlpar` field-accessor calls. -/
def Anlpar.runOps : List AnlparOp → Anlpar → Anlpar
  | [], r => r
  | op :: ops, r => Anlpar.runOps ops (AnlparOp.run op r).2

/-- A field-accessor call available on a `Phyidr1` value: its field table is
empty, so there are none. -/
inductive Phyidr1Op

/-- Effect of one `Phyidr1` field-accessor call (vacuous). -/
def Phyidr1Op.run (op : Phyidr1Op) (_r : Phyidr1) : Bool × Phyidr1 :=
  nomatch op

/-- Run a sequence of `Phyidr1` field-accessor calls. -/
def Phyidr1.runOps : List Phyidr1Op → Phyidr1 → Phyidr1
  | [], r => r
  | op :: ops, r => Phyidr1.runOps ops (Phyidr1Op.run op r).2

/-- A field-accessor call available on a `Phyidr2` value (none exist). -/
inductive Phyidr2Op

/-- Effect of one `Phyidr2` field-accessor call (vacuous). -/
def Phyidr2Op.run (op : Phyidr2Op) (_r : Phyidr2) : Bool × Phyidr2 :=
  nomatch op

/-- Run a sequence of `Phyidr2` field-accessor calls. -/
def Phyidr2.runOps : List Phyidr2Op → Phyidr2 → Phyidr2
  | [], r => r
  | op :: ops, r => Phyidr2.runOps ops (Phyidr2Op.run op r).2

/-- The full behaviour claimed for the generated setter at mask `m` on the
16-bit raw value `v`: setting `true` ORs the mask in, sets every mask bit
and leaves the bits outside the mask (selected by the 16-bit complement
`m ^^^ 65535`) identical; setting `false` clears every mask bit and leaves
the bits outside the mask identical; and the source expression
`v & (v ^ m)` coincides with `v & !m`. -/
def SetterSpec (m v : Nat) : Prop :=
  reg_setter m true v = v ||| m ∧
  reg_setter m true v &&& m = m ∧
  reg_setter m true v &&& (m ^^^ 65535) = v &&& (m ^^^ 65535) ∧
  reg_setter m false v &&& m = 0 ∧
  reg_setter m false v &&& (m ^^^ 65535) = v &&& (m ^^^ 65535) ∧
  v &&& (v ^^^ m) = v &&& (m ^^^ 65535)

/-! ### Helper lemmas about the macro-generated bit arithmetic -/

/-- The setter with `true` is exactly bitwise OR with the mask. -/
theorem reg_setter_true (mask v : Nat) : reg_setter mask true v = v ||| mask := rfl

/-- The setter with `false` is exactly the source expression
`self.0 & (self.0 ^ mask)`. -/
theorem reg_setter_false (mask v : Nat) : reg_setter mask false v = v &&& (v ^^^ mask) := rfl

/-- Bitwise effect of the `false` branch: `v & (v ^ mask)` has exactly the
bits of `v` that lie outside the mask. -/
theorem testBit_land_xor_self (v m i : Nat) :
    (v &&& (v ^^^ m)).testBit i = (v.testBit i && !(m.testBit i)) := by
  rw [Nat.testBit_land, Nat.testBit_xor]
  cases v.testBit i <;> cases m.testBit i <;> rfl

/-- Bitwise effect of the setter, both branches at once. -/
theorem testBit_reg_setter (m : Nat) (b : Bool) (v i : Nat) :
    (reg_setter m b v).testBit i = (if m.testBit i then b else v.testBit i) := by
  cases b
  · rw [reg_setter_false, testBit_land_xor_self]
    cases m.testBit i <;> simp
  · rw [reg_setter_true, Nat.testBit_or]
    cases m.testBit i <;> simp

/-- The getter tests whether the masked bits are all set. -/
theorem reg_getter_eq_true_iff (m v : Nat) :
    reg_getter m v = true ↔ v &&& m = m := by
  simp [reg_getter]

/-- `v &&& m = m` says exactly that every bit of `m` is set in `v`. -/
theorem land_eq_right_iff (v m : Nat) :
    v &&& m = m ↔ ∀ i, m.testBit i = true → v.testBit i = true := by
  constructor
  · intro h i hi
    have h2 : (v &&& m).testBit i = m.testBit i := by rw [h]
    rw [Nat.testBit_land, hi] at h2
    simpa using h2
  · intro h
    apply Nat.eq_of_testBit_eq
    intro i
    rw [Nat.testBit_land]
    cases hm : m.testBit i
    · simp
    · simp [h i hm]

/-- Disjoint masks have no common set bit. -/
theorem testBit_eq_false_of_land_eq_zero (m1 m2 : Nat) (h : m1 &&& m2 = 0) (i : Nat)
    (h1 : m1.testBit i = true) : m2.testBit i = false := by
  have h2 : (m1 &&& m2).testBit i = false := by rw [h]; exact Nat.zero_testBit i
  rw [Nat.testBit_land, h1] at h2
  simpa using h2

/-- Setting through a mask disjoint from `mf` leaves the `mf`-projection of
the value unchanged. -/
theorem land_reg_setter_of_disjoint (mf mg : Nat) (h : mf &&& mg = 0) (b : Bool) (v : Nat) :
    reg_setter mg b v &&& mf = v &&& mf := by
  apply Nat.eq_of_testBit_eq
  intro i
  rw [Nat.testBit_land, Nat.testBit_land, testBit_reg_setter]
  cases hf : mf.testBit i
  · simp
  · rw [testBit_eq_false_of_land_eq_zero mf mg h i hf]
    simp

/-- Setting through a mask disjoint from `mf` does not change the
`mf`-getter. -/
theorem reg_getter_reg_setter_of_disjoint (mf mg : Nat) (h : mf &&& mg = 0) (b : Bool)
    (v : Nat) : reg_getter mf (reg_setter mg b v) = reg_getter mf v := by
  simp [reg_getter, land_reg_setter_of_disjoint mf mg h b v]

/-- Masking with a single-bit mask succeeds exactly on values with that bit
set. -/
theorem land_two_pow_eq_iff (v k : Nat) :
    v &&& 2 ^ k = 2 ^ k ↔ v.testBit k = true := by
  rw [land_eq_right_iff]
  constructor
  · intro h
    exact h k (by simp [Nat.testBit_two_pow])
  · intro h i hi
    have h2 := Nat.testBit_two_pow (n := k) (m := i)
    rw [hi] at h2
    rw [← of_decide_eq_true h2.symm]
    exact h


/-- The getter at a single-bit mask reads exactly that bit. -/
theorem reg_getter_two_pow (k v : Nat) : reg_getter (2 ^ k) v = v.testBit k := by
  cases hv : v.testBit k
  · have h : ¬ v &&& 2 ^ k = 2 ^ k := by
      rw [land_two_pow_eq_iff, hv]
      exact Bool.false_ne_true
    simp [reg_getter, h]
  · simp [reg_getter, (land_two_pow_eq_iff v k).mpr hv]

/-- After setting with `true`, the masked bits are all set. -/
theorem land_reg_setter_true (m v : Nat) : reg_setter m true v &&& m = m := by
  apply Nat.eq_of_testBit_eq
  intro i
  rw [Nat.testBit_land, testBit_reg_setter]
  cases m.testBit i <;> simp

/-- After setting with `false`, the masked bits are all clear. -/
theorem land_reg_setter_false (m v : Nat) : reg_setter m false v &&& m = 0 := by
  apply Nat.eq_of_testBit_eq
  intro i
  rw [Nat.testBit_land, testBit_reg_setter, Nat.zero_testBit]
  cases m.testBit i <;> simp

/-- Every `Bcr` mask is the single bit recorded in `BcrField.bit`. -/
theorem bcr_mask_single_bit (f : BcrField) : f.mask = 2 ^ f.bit := by
  cases f <;> decide

/-- Every `Anar` mask is the single bit recorded in `AnarField.bit`. -/
theorem anar_mask_single_bit (f : AnarField) : f.mask = 2 ^ f.bit := by
  cases f <;> decide

/-- Every writable field's mask is a single bit. -/
theorem writable_mask_single_bit (f : WritableField) : f.mask = 2 ^ f.bit := by
  cases f with
  | bcr g => exact bcr_mask_single_bit g
  | anar g => exact anar_mask_single_bit g

/-- No writable field has the zero mask. -/
theorem WritableField.mask_ne_zero (f : WritableField) : f.mask ≠ 0 := by
  rw [writable_mask_single_bit f]
  exact Nat.pos_iff_ne_zero.mp (Nat.pos_pow_of_pos f.bit (by decide))

/-- Within `Bcr`, distinct fields have disjoint masks (checked over the
whole table). -/
theorem bcr_mask_disjoint : ∀ f g : BcrField, f ≠ g → f.mask &&& g.mask = 0 := by
  decide

/-- Within `Bsr`, distinct fields have disjoint masks. -/
theorem bsr_mask_disjoint : ∀ f g : BsrField, f ≠ g → f.mask &&& g.mask = 0 := by
  decide

/-- Within `Anar`, distinct fields have disjoint masks. -/
theorem anar_mask_disjoint : ∀ f g : AnarField, f ≠ g → f.mask &&& g.mask = 0 := by
  decide

/-- Within `Anlpar`, distinct fields have disjoint masks. -/
theorem anlpar_mask_disjoint : ∀ f g : AnlparField, f ≠ g → f.mask &&& g.mask = 0 := by
  decide

/-- A single-bit setter applied when the getter already reads the written
value is the identity on the raw value. -/
theorem reg_setter_eq_self_of_getter (k v : Nat) (b : Bool)
    (h : reg_getter (2 ^ k) v = b) : reg_setter (2 ^ k) b v = v := by
  rw [reg_getter_two_pow] at h
  apply Nat.eq_of_testBit_eq
  intro i
  rw [testBit_reg_setter]
  cases hik : (2 ^ k).testBit i
  · simp
  · have hk : k = i := of_decide_eq_true (by rw [← Nat.testBit_two_pow]; exact hik)
    subst hk
    simp [h]

/-- The 16-bit all-ones word has exactly bits 0 to 15 set. -/
theorem testBit_65535 (i : Nat) : (65535 : Nat).testBit i = decide (i < 16) := by
  rw [show (65535 : Nat) = 2 ^ 16 - 1 from by norm_num, Nat.testBit_two_pow_sub_one]

/-- A value below `2 ^ 16` has no bit set at or above position 16. -/
theorem testBit_eq_false_of_lt_65536 (v i : Nat) (hv : v < 65536) (hi : 16 ≤ i) :
    v.testBit i = false := by
  have h2 : (2 : Nat) ^ 16 ≤ 2 ^ i := Nat.pow_le_pow_right (by decide) hi
  have hv1 : v < 2 ^ 16 := by
    rw [show (2 : Nat) ^ 16 = 65536 from by norm_num]
    exact hv
  exact Nat.testBit_lt_two_pow (lt_of_lt_of_le hv1 h2)

/-- Every writable field's mask is a 16-bit value. -/
theorem WritableField.mask_lt (f : WritableField) : f.mask < 65536 := by
  cases f with
  | bcr g => cases g <;> decide
  | anar g => cases g <;> decide

/-- The setter leaves the bits outside a 16-bit mask (selected by the
mask's 16-bit complement) unchanged. -/
theorem land_comp_reg_setter (m : Nat) (hm : m < 65536) (b : Bool) (v : Nat) :
    reg_setter m b v &&& (m ^^^ 65535) = v &&& (m ^^^ 65535) := by
  apply Nat.eq_of_testBit_eq
  intro i
  rw [Nat.testBit_land, Nat.testBit_land, testBit_reg_setter, Nat.testBit_xor]
  cases hmi : m.testBit i
  · simp
  · have hi : i < 16 := by
      by_contra hge
      rw [testBit_eq_false_of_lt_65536 m i hm (le_of_not_lt hge)] at hmi
      exact Bool.false_ne_true hmi
    rw [testBit_65535 i, decide_eq_true hi]
    simp

/-- For a 16-bit value, the source's clearing expression `v & (v ^ m)`
agrees with `v & !m` where `!m` is the 16-bit complement of the mask. -/
theorem land_xor_self_eq_land_comp (v m : Nat) (hv : v < 65536) :
    v &&& (v ^^^ m) = v &&& (m ^^^ 65535) := by
  apply Nat.eq_of_testBit_eq
  intro i
  rw [testBit_land_xor_self, Nat.testBit_land, Nat.testBit_xor, testBit_65535 i]
  by_cases hi : i < 16
  · rw [decide_eq_true hi]
    cases m.testBit i <;> simp
  · rw [testBit_eq_false_of_lt_65536 v i hv (le_of_not_lt hi)]
    simp

/-- Reading a field right after writing it returns the written boolean, for
any nonzero mask. -/
theorem reg_getter_reg_setter_self (m : Nat) (hm : m ≠ 0) (b : Bool) (v : Nat) :
    reg_getter m (reg_setter m b v) = b := by
  cases b
  · have hne : (0 : Nat) ≠ m := fun h => hm h.symm
    simp [reg_getter, land_reg_setter_false, hne]
  · simp [reg_getter, land_reg_setter_true]

/-! ### The claims -/

/-- C1: for every writable field of every register kind and every 16-bit
raw value, `set_field(true)` replaces the raw value with its bitwise OR
with the field's mask, setting exactly the mask's bits and leaving every
bit outside the mask identical, and `set_field(false)` clears exactly the
mask's bits and leaves every bit outside the mask identical; in
particular the code's computation `v & (v ^ mask)` equals `v & !mask`. -/
theorem claim_C1 (f : WritableField) (v : Nat) (h : v < 65536) : SetterSpec f.mask v :=
  ⟨rfl, land_reg_setter_true f.mask v, land_comp_reg_setter f.mask f.mask_lt true v,
    land_reg_setter_false f.mask v, land_comp_reg_setter f.mask f.mask_lt false v,
    land_xor_self_eq_land_comp v f.mask h⟩

/-- Witness for C1 at the `Bcr` soft-reset field and raw value `0x1234`. -/
theorem claim_C1_witness :
    (0x1234 : Nat) < 65536 ∧ SetterSpec (WritableField.bcr BcrField.soft_reset).mask 0x1234 :=
  ⟨by decide, claim_C1 (WritableField.bcr BcrField.soft_reset) 0x1234 (by decide)⟩

/-- C2: for every field of every register kind and every raw value, the
generated getter returns true iff every bit of the field's mask is set in
the wrapped value, and it is literally the exact-match test
`value & mask == mask` (not a nonzero test). -/
theorem claim_C2 (f : AnyField) (v : Nat) :
    (reg_getter f.mask v = true ↔ ∀ i, f.mask.testBit i = true → v.testBit i = true) ∧
    reg_getter f.mask v = (v &&& f.mask == f.mask) := by
  refine ⟨?_, rfl⟩
  rw [reg_getter_eq_true_iff]
  exact land_eq_right_iff v f.mask

/-- C3: within each register kind (Bcr, Bsr, Anar, Anlpar) the mask table
defines pairwise non-overlapping masks, and consequently setting one
writable field to either boolean leaves every other field's getter result
unchanged. -/
theorem claim_C3 :
    (∀ f g : BcrField, f ≠ g → f.mask &&& g.mask = 0) ∧
    (∀ f g : BsrField, f ≠ g → f.mask &&& g.mask = 0) ∧
    (∀ f g : AnarField, f ≠ g → f.mask &&& g.mask = 0) ∧
    (∀ f g : AnlparField, f ≠ g → f.mask &&& g.mask = 0) ∧
    (∀ f g : BcrField, f ≠ g → ∀ (b : Bool) (r : Bcr), (r.set g b).get f = r.get f) ∧
    (∀ f g : AnarField, f ≠ g → ∀ (b : Bool) (r : Anar), (r.set g b).get f = r.get f) := by
  refine ⟨bcr_mask_disjoint, bsr_mask_disjoint, anar_mask_disjoint, anlpar_mask_disjoint,
    ?_, ?_⟩
  · intro f g hfg b r
    exact reg_getter_reg_setter_of_disjoint f.mask g.mask (bcr_mask_disjoint f g hfg) b r.raw
  · intro f g hfg b r
    exact reg_getter_reg_setter_of_disjoint f.mask g.mask (anar_mask_disjoint f g hfg) b r.raw

/-- C4, counterexample: on the control register value built from raw
`0x9000`, `loopback()` does not return true (raw `0x9000` sets bits 15 and
12, i.e. soft-reset and enable-autoneg, while `LOOPBACK` is bit 14 with
mask `0x4000`), so the claimed triple of getter results is false. -/
theorem claim_C4_counterexample :
    ¬ ((Bcr.fromU16 0x9000).soft_reset = true ∧ (Bcr.fromU16 0x9000).loopback = true ∧
      (Bcr.fromU16 0x9000).force_100 = false) := by
  decide

/-- C4, amended: on the control register value built from raw `0x9000`,
`soft_reset()` returns true, `loopback()` returns false, and `force_100()`
returns false. -/
theorem claim_C4 :
    (Bcr.fromU16 0x9000).soft_reset = true ∧ (Bcr.fromU16 0x9000).loopback = false ∧
      (Bcr.fromU16 0x9000).force_100 = false := by
  decide

/-- C5: for every register kind and every 16-bit integer, converting the
integer into the register type and back yields the integer; the
conversions are total functions and reject no bit pattern. -/
theorem claim_C5 (u : Nat) (_h : u < 65536) :
    Bcr.intoU16 (Bcr.fromU16 u) = u ∧ Bsr.intoU16 (Bsr.fromU16 u) = u ∧
    Phyidr1.intoU16 (Phyidr1.fromU16 u) = u ∧ Phyidr2.intoU16 (Phyidr2.fromU16 u) = u ∧
    Anar.intoU16 (Anar.fromU16 u) = u ∧ Anlpar.intoU16 (Anlpar.fromU16 u) = u :=
  ⟨rfl, rfl, rfl, rfl, rfl, rfl⟩

/-- Witness for C5 at the raw value `0xABCD`. -/
theorem claim_C5_witness :
    (0xABCD : Nat) < 65536 ∧
    (Bcr.intoU16 (Bcr.fromU16 0xABCD) = 0xABCD ∧ Bsr.intoU16 (Bsr.fromU16 0xABCD) = 0xABCD ∧
    Phyidr1.intoU16 (Phyidr1.fromU16 0xABCD) = 0xABCD ∧
    Phyidr2.intoU16 (Phyidr2.fromU16 0xABCD) = 0xABCD ∧
    Anar.intoU16 (Anar.fromU16 0xABCD) = 0xABCD ∧
    Anlpar.intoU16 (Anlpar.fromU16 0xABCD) = 0xABCD) :=
  ⟨by decide, claim_C5 0xABCD (by decide)⟩

/-- C6: for every writable field, every starting raw value and every
boolean, writing the field and immediately reading it back returns the
written boolean, regardless of prior state. -/
theorem claim_C6 :
    (∀ (f : BcrField) (b : Bool) (r : Bcr), (r.set f b).get f = b) ∧
    (∀ (f : AnarField) (b : Bool) (r : Anar), (r.set f b).get f = b) := by
  constructor
  · intro f b r
    exact reg_getter_reg_setter_self f.mask (WritableField.mask_ne_zero (.bcr f)) b r.raw
  · intro f b r
    exact reg_getter_reg_setter_self f.mask (WritableField.mask_ne_zero (.anar f)) b r.raw

/-- C7: each register kind's compile-time address constant equals its IEEE
clause-22 offset. -/
theorem claim_C7 :
    Bcr.ADDRESS = 0x00 ∧ Bsr.ADDRESS = 0x01 ∧ Phyidr1.ADDRESS = 0x02 ∧
    Phyidr2.ADDRESS = 0x03 ∧ Anar.ADDRESS = 0x04 ∧ Anlpar.ADDRESS = 0x05 := by
  decide

/-- C8: the read-only register kinds (Bsr, Anlpar, Phyidr1, Phyidr2)
generate only getters for their named fields, so any sequence of
field-accessor calls on a value of these kinds leaves its wrapped raw
value unchanged. -/
theorem claim_C8 :
    (∀ (ops : List BsrOp) (r : Bsr), Bsr.runOps ops r = r) ∧
    (∀ (ops : List AnlparOp) (r : Anlpar), Anlpar.runOps ops r = r) ∧
    (∀ (ops : List Phyidr1Op) (r : Phyidr1), Phyidr1.runOps ops r = r) ∧
    (∀ (ops : List Phyidr2Op) (r : Phyidr2), Phyidr2.runOps ops r = r) := by
  refine ⟨?_, ?_, ?_, ?_⟩
  · intro ops
    induction ops with
    | nil => intro r; rfl
    | cons op ops2 ih =>
      intro r
      cases op with
      | get f => exact ih r
  · intro ops
    induction ops with
    | nil => intro r; rfl
    | cons op ops2 ih =>
      intro r
      cases op with
      | get f => exact ih r
  · intro ops
    induction ops with
    | nil => intro r; rfl
    | cons op ops2 ih =>
      intro r
      cases op
  · intro ops
    induction ops with
    | nil => intro r; rfl
    | cons op ops2 ih =>
      intro r
      cases op

/-- C9: every writable field's setter is last-write-wins: a second write
overrides the first, a repeated write is idempotent, and writing the value
the getter currently reads leaves the raw value bit-for-bit unchanged. -/
theorem claim_C9 (f : WritableField) (v : Nat) (b1 b2 b : Bool) :
    reg_setter f.mask b2 (reg_setter f.mask b1 v) = reg_setter f.mask b2 v ∧
    reg_setter f.mask b (reg_setter f.mask b v) = reg_setter f.mask b v ∧
    reg_setter f.mask (reg_getter f.mask v) v = v := by
  have hlww : ∀ c1 c2 : Bool,
      reg_setter f.mask c2 (reg_setter f.mask c1 v) = reg_setter f.mask c2 v := by
    intro c1 c2
    apply Nat.eq_of_testBit_eq
    intro i
    rw [testBit_reg_setter, testBit_reg_setter, testBit_reg_setter]
    cases f.mask.testBit i <;> simp
  refine ⟨hlww b1 b2, hlww b b, ?_⟩
  rw [writable_mask_single_bit f]
  exact reg_setter_eq_self_of_getter f.bit v (reg_getter (2 ^ f.bit) v) rfl

/-- C10: bit 6 (mask `0x0040`) of the control register is claimed by no
named `Bcr` field: every `Bcr` setter leaves it unchanged, no `Bcr` getter
depends on it, yet the `Bcr` fields cover every other bit position 0-15. -/
theorem claim_C10 :
    (∀ f : BcrField, f.mask.testBit 6 = false) ∧
    (∀ (f : BcrField) (b : Bool) (v : Nat), (reg_setter f.mask b v).testBit 6 = v.testBit 6) ∧
    (∀ (f : BcrField) (v : Nat), reg_getter f.mask (v ^^^ 2 ^ 6) = reg_getter f.mask v) ∧
    (∀ i, i < 16 → i ≠ 6 → ∃ f : BcrField, f.mask.testBit i = true) := by
  have h6 : ∀ f : BcrField, f.mask.testBit 6 = false := by decide
  refine ⟨h6, ?_, ?_, by decide⟩
  · intro f b v
    rw [testBit_reg_setter, h6 f]
    simp
  · intro f v
    have hproj : (v ^^^ 2 ^ 6) &&& f.mask = v &&& f.mask := by
      apply Nat.eq_of_testBit_eq
      intro i
      rw [Nat.testBit_land, Nat.testBit_land, Nat.testBit_xor]
      by_cases hik : 6 = i
      · subst hik
        rw [h6 f]
        simp
      · rw [show (2 ^ 6 : Nat).testBit i = false from by
          rw [Nat.testBit_two_pow]; exact decide_eq_false hik]
        simp
    norm_num at hproj
    simp [reg_getter, hproj]

end StmEth
